import Mathlib

/-!
Shallow embedding of `src/simple_game.py` (catch-the-balls game).

Coordinates are integers: every quantity the source manipulates is an
exact integer value (the constants are even wherever the source halves
them, positions move in integer steps, and the clamp shifts restore
integer bounds), so ℤ models the Python floats without loss, and the
halvings `PADDLE_WIDTH / 2`, `WIDTH / 2` are exact. The tkinter canvas is
projected away: a ball is its centre position and radius, the paddle is its
centre x-coordinate (the canvas rectangle the source keeps in sync with
`paddle_x` is derived as `paddle_x ± PADDLE_WIDTH/2`), and drawing calls
are no-ops on this state. The spawn position (`random.randint`) is an
injected parameter.
-/

namespace SimpleGame

/-- WIDTH = 500 -/
def WIDTH : ℤ := 500
/-- HEIGHT = 400 -/
def HEIGHT : ℤ := 400
/-- PADDLE_WIDTH = 100 -/
def PADDLE_WIDTH : ℤ := 100
/-- PADDLE_HEIGHT = 12 -/
def PADDLE_HEIGHT : ℤ := 12
/-- BALL_RADIUS = 12 -/
def BALL_RADIUS : ℤ := 12
/-- BALL_FALL_SPEED = 4 (pixels per frame) -/
def BALL_FALL_SPEED : ℤ := 4

/-- A falling ball: centre `(x, y)` and radius `r`
(class `Ball`; position recovered from its oval's canvas coords). -/
structure Ball where
  x : ℤ
  y : ℤ
  r : ℤ
deriving DecidableEq

/-- The fields of class `Game` the core logic reads and writes. -/
structure GameState where
  paddle_x : ℤ
  score : ℤ
  lives : ℤ
  move_left : Bool
  move_right : Bool
  balls : List Ball
  game_over : Bool
deriving DecidableEq

/-- `Game.__init__`: paddle centred, score 0, lives 3, both movement flags
clear, no balls, not game over. -/
def initState : GameState :=
  { paddle_x := WIDTH / 2
    score := 0
    lives := 3
    move_left := false
    move_right := false
    balls := []
    game_over := false }

/-- `Game.set_move(dir)`: dir = -1 sets left and clears right, dir = 1 sets
right and clears left, anything else clears both. -/
def setMove (s : GameState) (dir : ℤ) : GameState :=
  if dir = -1 then { s with move_left := true, move_right := false }
  else if dir = 1 then { s with move_right := true, move_left := false }
  else { s with move_left := false, move_right := false }

/-- A sequence of `set_move` calls applied in order. -/
def applyMoves (s : GameState) (dirs : List ℤ) : GameState :=
  dirs.foldl setMove s

/-- `Game.spawn_ball` with the random x injected: no-op when game over,
otherwise append a ball at `(x, -BALL_RADIUS)`. -/
def spawnBall (s : GameState) (x : ℤ) : GameState :=
  if s.game_over then s
  else { s with balls := s.balls ++ [⟨(x : ℤ), -BALL_RADIUS, BALL_RADIUS⟩] }

/-- The `dx` the update step derives from the movement flags
(`speed = 8`; `move_left` is tested first). -/
def paddleDx (s : GameState) : ℤ :=
  if s.move_left then -8 else if s.move_right then 8 else 0

/-- The clamp section of `Game.update`: `left` and `right` are both computed
from the paddle position `x1` already shifted by `dx`; the two shift-`if`s
then run in sequence (the second still using the `right` computed from
`x1`). -/
def clampShift (x1 : ℤ) : ℤ :=
  let x2 := if x1 - PADDLE_WIDTH / 2 < 0 then x1 + -(x1 - PADDLE_WIDTH / 2) else x1
  if x1 + PADDLE_WIDTH / 2 > WIDTH then x2 + (WIDTH - (x1 + PADDLE_WIDTH / 2)) else x2

/-- The paddle-movement section of `Game.update`: when `dx ≠ 0`, shift
`paddle_x` by `dx` and clamp. -/
def movePaddle (s : GameState) : GameState :=
  if paddleDx s ≠ 0 then { s with paddle_x := clampShift (s.paddle_x + paddleDx s) }
  else s

/-- Per-tick advance of a ball: `ball.move(0, BALL_FALL_SPEED)`. -/
def advance (b : Ball) : Ball :=
  ⟨b.x, b.y + BALL_FALL_SPEED, b.r⟩

/-- Outcome of the per-ball checks in `Game.update`'s loop body. -/
inductive Outcome where
  | Caught
  | Missed
  | Falling
deriving DecidableEq

/-- The classification the loop body applies to a ball's post-advance
position: caught when `y + r >= HEIGHT - 30 - PADDLE_HEIGHT` and the paddle
span `[paddle_x - PADDLE_WIDTH/2, paddle_x + PADDLE_WIDTH/2]` contains `x`
(the body `continue`s); otherwise missed when `y - r > HEIGHT`; otherwise
the ball keeps falling. -/
def classify (px : ℤ) (b : Ball) : Outcome :=
  if HEIGHT - 30 - PADDLE_HEIGHT ≤ b.y + b.r ∧
      px - PADDLE_WIDTH / 2 ≤ b.x ∧ b.x ≤ px + PADDLE_WIDTH / 2 then Outcome.Caught
  else if HEIGHT < b.y - b.r then Outcome.Missed
  else Outcome.Falling

/-- The loop state of `Game.update`'s ball loop: score, lives, the
game-over flag, and the balls still alive (in order). -/
structure TickAcc where
  score : ℤ
  lives : ℤ
  game_over : Bool
  kept : List Ball
deriving DecidableEq

/-- One iteration of the ball loop: advance the ball, classify it; a caught
ball adds a point and is removed, a missed ball costs a life and is removed
(`end_game` runs when lives drop to 0 or below), a falling ball stays. -/
def stepBall (px : ℤ) (a : TickAcc) (b : Ball) : TickAcc :=
  match classify px (advance b) with
  | Outcome.Caught => { a with score := a.score + 1 }
  | Outcome.Missed =>
      { a with
        lives := a.lives - 1
        game_over := if a.lives - 1 ≤ 0 then true else a.game_over }
  | Outcome.Falling => { a with kept := a.kept ++ [advance b] }

/-- The whole ball loop: `for ball in list(self.balls)` runs over every ball,
with no early exit (in particular it does not re-test `game_over`). -/
def processBalls (px : ℤ) (a : TickAcc) : List Ball → TickAcc
  | [] => a
  | b :: t => processBalls px (stepBall px a b) t

/-- `Game.update`: return unchanged when game over; otherwise move and clamp
the paddle, then run the ball loop against the post-move paddle. -/
def update (s : GameState) : GameState :=
  if s.game_over then s
  else
    let s1 := movePaddle s
    let a := processBalls s1.paddle_x ⟨s1.score, s1.lives, s1.game_over, []⟩ s1.balls
    { s1 with score := a.score, lives := a.lives, game_over := a.game_over, balls := a.kept }

/-- `Game.restart`: paddle re-centred, score 0, lives 3, no balls, playing
again. The movement flags are not touched by the source's `restart`. -/
def restart (s : GameState) : GameState :=
  { s with
    paddle_x := WIDTH / 2
    score := 0
    lives := 3
    balls := []
    game_over := false }

/-- The states the game can reach from `__init__` by any interleaving of
update ticks and spawns (spawn x drawn from `randint(BALL_RADIUS,
WIDTH - BALL_RADIUS)`). -/
inductive Reachable : GameState → Prop
  | init : Reachable initState
  | tick {s : GameState} : Reachable s → Reachable (update s)
  | spawn {s : GameState} (x : ℤ) :
      BALL_RADIUS ≤ (x : ℤ) → (x : ℤ) ≤ WIDTH - BALL_RADIUS →
      Reachable s → Reachable (spawnBall s x)

/-- Whether an advanced ball gets caught this tick. -/
def isCaught (px : ℤ) (b : Ball) : Bool :=
  decide (classify px (advance b) = Outcome.Caught)

/-- Whether an advanced ball gets missed this tick. -/
def isMissed (px : ℤ) (b : Ball) : Bool :=
  decide (classify px (advance b) = Outcome.Missed)

/-- Whether an advanced ball keeps falling this tick. -/
def isFalling (px : ℤ) (b : Ball) : Bool :=
  decide (classify px (advance b) = Outcome.Falling)

/-! ### Helper lemmas -/

theorem movePaddle_score (s : GameState) : (movePaddle s).score = s.score := by
  unfold movePaddle; split <;> rfl

theorem movePaddle_lives (s : GameState) : (movePaddle s).lives = s.lives := by
  unfold movePaddle; split <;> rfl

theorem movePaddle_balls (s : GameState) : (movePaddle s).balls = s.balls := by
  unfold movePaddle; split <;> rfl

theorem movePaddle_game_over (s : GameState) : (movePaddle s).game_over = s.game_over := by
  unfold movePaddle; split <;> rfl

theorem stepBall_caught (px : ℤ) (a : TickAcc) (b : Ball)
    (h : classify px (advance b) = Outcome.Caught) :
    stepBall px a b = { a with score := a.score + 1 } := by
  unfold stepBall; rw [h]

theorem stepBall_missed (px : ℤ) (a : TickAcc) (b : Ball)
    (h : classify px (advance b) = Outcome.Missed) :
    stepBall px a b =
      { a with
        lives := a.lives - 1
        game_over := if a.lives - 1 ≤ 0 then true else a.game_over } := by
  unfold stepBall; rw [h]

theorem stepBall_falling (px : ℤ) (a : TickAcc) (b : Ball)
    (h : classify px (advance b) = Outcome.Falling) :
    stepBall px a b = { a with kept := a.kept ++ [advance b] } := by
  unfold stepBall; rw [h]

theorem processBalls_score (px : ℤ) (l : List Ball) :
    ∀ a : TickAcc, (processBalls px a l).score = a.score + (l.countP (isCaught px) : ℤ) := by
  induction l with
  | nil => intro a; simp [processBalls]
  | cons b t ih =>
    intro a
    rw [processBalls, ih]
    rcases hc : classify px (advance b) with _ | _ | _
    · rw [stepBall_caught px a b hc]
      simp [List.countP_cons, isCaught, hc]
      omega
    · rw [stepBall_missed px a b hc]
      simp [List.countP_cons, isCaught, hc]
    · rw [stepBall_falling px a b hc]
      simp [List.countP_cons, isCaught, hc]

theorem processBalls_lives (px : ℤ) (l : List Ball) :
    ∀ a : TickAcc, (processBalls px a l).lives = a.lives - (l.countP (isMissed px) : ℤ) := by
  induction l with
  | nil => intro a; simp [processBalls]
  | cons b t ih =>
    intro a
    rw [processBalls, ih]
    rcases hc : classify px (advance b) with _ | _ | _
    · rw [stepBall_caught px a b hc]
      simp [List.countP_cons, isMissed, hc]
    · rw [stepBall_missed px a b hc]
      simp [List.countP_cons, isMissed, hc]
      omega
    · rw [stepBall_falling px a b hc]
      simp [List.countP_cons, isMissed, hc]

theorem processBalls_kept (px : ℤ) (l : List Ball) :
    ∀ a : TickAcc,
      (processBalls px a l).kept = a.kept ++ (l.filter (isFalling px)).map advance := by
  induction l with
  | nil => intro a; simp [processBalls]
  | cons b t ih =>
    intro a
    rw [processBalls, ih]
    rcases hc : classify px (advance b) with _ | _ | _
    · rw [stepBall_caught px a b hc]
      simp [List.filter_cons, isFalling, hc]
    · rw [stepBall_missed px a b hc]
      simp [List.filter_cons, isFalling, hc]
    · rw [stepBall_falling px a b hc]
      simp [List.filter_cons, isFalling, hc]

theorem processBalls_game_over (px : ℤ) (l : List Ball) :
    ∀ a : TickAcc,
      ((processBalls px a l).game_over = true ↔
        (a.game_over = true ∨
          (1 ≤ l.countP (isMissed px) ∧ a.lives ≤ (l.countP (isMissed px) : ℤ)))) := by
  induction l with
  | nil => intro a; simp [processBalls]
  | cons b t ih =>
    intro a
    rw [processBalls, ih]
    rcases hc : classify px (advance b) with _ | _ | _
    · rw [stepBall_caught px a b hc]
      simp only [List.countP_cons, isMissed, hc]
      simp
    · rw [stepBall_missed px a b hc]
      dsimp only
      have hcount :
          List.countP (isMissed px) (b :: t) = List.countP (isMissed px) t + 1 := by
        simp [List.countP_cons, isMissed, hc]
      rw [hcount]
      constructor
      · rintro (h | h)
        · split at h
          · right; omega
          · left; exact h
        · right; omega
      · rintro (h | h)
        · left
          split
          · rfl
          · exact h
        · rcases Nat.lt_or_ge (List.countP (isMissed px) t) 1 with hm | hm
          · left
            split
            · rfl
            · exfalso; omega
          · right; omega
    · rw [stepBall_falling px a b hc]
      simp only [List.countP_cons, isMissed, hc]
      simp

theorem update_frozen_aux (s : GameState) (h : s.game_over = true) : update s = s := by
  unfold update; rw [if_pos h]

theorem spawnBall_frozen_aux (s : GameState) (x : ℤ) (h : s.game_over = true) :
    spawnBall s x = s := by
  unfold spawnBall; rw [if_pos h]

theorem spawnBall_lives (s : GameState) (x : ℤ) : (spawnBall s x).lives = s.lives := by
  unfold spawnBall; split <;> rfl

theorem spawnBall_game_over (s : GameState) (x : ℤ) :
    (spawnBall s x).game_over = s.game_over := by
  unfold spawnBall; split <;> rfl

theorem update_score (s : GameState) (h : s.game_over = false) :
    (update s).score =
      s.score + (s.balls.countP (isCaught (movePaddle s).paddle_x) : ℤ) := by
  simp only [update, h, Bool.false_eq_true, if_false]
  rw [processBalls_score, movePaddle_balls]
  dsimp only
  rw [movePaddle_score]

theorem update_lives (s : GameState) (h : s.game_over = false) :
    (update s).lives =
      s.lives - (s.balls.countP (isMissed (movePaddle s).paddle_x) : ℤ) := by
  simp only [update, h, Bool.false_eq_true, if_false]
  rw [processBalls_lives, movePaddle_balls]
  dsimp only
  rw [movePaddle_lives]

theorem update_balls (s : GameState) (h : s.game_over = false) :
    (update s).balls =
      (s.balls.filter (isFalling (movePaddle s).paddle_x)).map advance := by
  simp only [update, h, Bool.false_eq_true, if_false]
  rw [processBalls_kept, movePaddle_balls]
  dsimp only
  simp

theorem update_game_over (s : GameState) (h : s.game_over = false) :
    ((update s).game_over = true ↔
      (1 ≤ s.balls.countP (isMissed (movePaddle s).paddle_x) ∧
        s.lives ≤ (s.balls.countP (isMissed (movePaddle s).paddle_x) : ℤ))) := by
  simp only [update, h, Bool.false_eq_true, if_false]
  rw [processBalls_game_over, movePaddle_balls]
  dsimp only
  rw [movePaddle_game_over, movePaddle_lives, h]
  simp

theorem reachable_iterate (s : GameState) (h : Reachable s) (n : ℕ) :
    Reachable (update^[n] s) := by
  induction n with
  | zero => simpa using h
  | succ k ih => rw [Function.iterate_succ_apply']; exact Reachable.tick ih

/-- Initial state followed by four back-to-back spawns at x = 12. -/
def fourSpawns : GameState :=
  spawnBall (spawnBall (spawnBall (spawnBall initState 12) 12) 12) 12

/-- 107 ticks later: all four balls cross the bottom in the same tick. -/
def overshootState : GameState := update^[107] fourSpawns

/-- A state with one life left and two balls about to cross the bottom
together, the paddle (at 250) out of reach of both. -/
def doubleMissState : GameState :=
  { paddle_x := 250
    score := 0
    lives := 1
    move_left := false
    move_right := false
    balls := [⟨12, 412, 12⟩, ⟨12, 412, 12⟩]
    game_over := false }

theorem clampShift_eq (x1 : ℤ) (h : 42 ≤ x1 ∧ x1 ≤ 458) :
    clampShift x1 = max 50 (min x1 450) := by
  have hpw : PADDLE_WIDTH / 2 = (50 : ℤ) := by decide
  have hw : WIDTH = (500 : ℤ) := by decide
  simp only [clampShift, hpw, hw]
  split_ifs <;> omega

set_option maxRecDepth 100000

/-! ### Claim theorems -/

/-- C1: after a ball advances by `BALL_FALL_SPEED`, the tick classifies it
Caught iff its bottom edge (`y + r`) has reached the paddle's top row
(`HEIGHT - 30 - PADDLE_HEIGHT`) and the paddle span contains its centre x
(closed interval, centre-point test); the catch check runs before the miss
check, so, if not caught, it is Missed iff its top edge (`y - r`) is
strictly below `HEIGHT`, and otherwise it keeps Falling — in particular a
ball at the paddle row inside the span is never Missed, and a past-paddle
ball that missed horizontally is retained until its top edge clears
`HEIGHT`. -/
theorem classify_characterization (px : ℤ) (b : Ball) :
    (classify px (advance b) = Outcome.Caught ↔
      (HEIGHT - 30 - PADDLE_HEIGHT ≤ (advance b).y + (advance b).r ∧
        px - PADDLE_WIDTH / 2 ≤ (advance b).x ∧ (advance b).x ≤ px + PADDLE_WIDTH / 2)) ∧
    (classify px (advance b) = Outcome.Missed ↔
      (¬ (HEIGHT - 30 - PADDLE_HEIGHT ≤ (advance b).y + (advance b).r ∧
          px - PADDLE_WIDTH / 2 ≤ (advance b).x ∧ (advance b).x ≤ px + PADDLE_WIDTH / 2) ∧
        HEIGHT < (advance b).y - (advance b).r)) ∧
    (classify px (advance b) = Outcome.Falling ↔
      (¬ (HEIGHT - 30 - PADDLE_HEIGHT ≤ (advance b).y + (advance b).r ∧
          px - PADDLE_WIDTH / 2 ≤ (advance b).x ∧ (advance b).x ≤ px + PADDLE_WIDTH / 2) ∧
        ¬ HEIGHT < (advance b).y - (advance b).r)) := by
  by_cases hcond : (HEIGHT - 30 - PADDLE_HEIGHT ≤ (advance b).y + (advance b).r ∧
      px - PADDLE_WIDTH / 2 ≤ (advance b).x ∧ (advance b).x ≤ px + PADDLE_WIDTH / 2)
  · have hc : classify px (advance b) = Outcome.Caught := by
      unfold classify; rw [if_pos hcond]
    rw [hc]
    refine ⟨⟨fun _ => hcond, fun _ => rfl⟩, ?_, ?_⟩
    · constructor
      · intro hx; exact absurd hx (by decide)
      · rintro ⟨hnc, _⟩; exact absurd hcond hnc
    · constructor
      · intro hx; exact absurd hx (by decide)
      · rintro ⟨hnc, _⟩; exact absurd hcond hnc
  · by_cases hmiss : HEIGHT < (advance b).y - (advance b).r
    · have hc : classify px (advance b) = Outcome.Missed := by
        unfold classify; rw [if_neg hcond, if_pos hmiss]
      rw [hc]
      refine ⟨?_, ⟨fun _ => ⟨hcond, hmiss⟩, fun _ => rfl⟩, ?_⟩
      · constructor
        · intro hx; exact absurd hx (by decide)
        · intro hx; exact absurd hx hcond
      · constructor
        · intro hx; exact absurd hx (by decide)
        · rintro ⟨_, hnm⟩; exact absurd hmiss hnm
    · have hc : classify px (advance b) = Outcome.Falling := by
        unfold classify; rw [if_neg hcond, if_neg hmiss]
      rw [hc]
      refine ⟨?_, ?_, ⟨fun _ => ⟨hcond, hmiss⟩, fun _ => rfl⟩⟩
      · constructor
        · intro hx; exact absurd hx (by decide)
        · intro hx; exact absurd hx hcond
      · constructor
        · intro hx; exact absurd hx (by decide)
        · rintro ⟨_, hm⟩; exact absurd hm hmiss

/-- C2 counterexample: in `doubleMissState` (one life left, two balls
crossing the bottom in the same tick, paddle out of reach), the tick whose
first miss ends the game still processes the second ball: lives end at -1
and both balls are removed, where the claim would leave lives at 0 and the
second ball untouched. -/
theorem tick_processes_remaining_balls_cex :
    (update doubleMissState).game_over = true ∧
    (update doubleMissState).lives = -1 ∧
    (update doubleMissState).balls = [] := by
  decide

/-- C2 amended: the ball loop runs to completion even when a miss drives
lives to 0 mid-tick: every ball of the tick is classified and applied, so
the tick ends with one point per caught ball, one life lost per missed
ball (possibly past 0), and exactly the still-falling balls kept; only
ticks after the game-over tick are no-ops. -/
theorem tick_processes_all_balls (s : GameState) (h : s.game_over = false) :
    (update s).score = s.score + (s.balls.countP (isCaught (movePaddle s).paddle_x) : ℤ) ∧
    (update s).lives = s.lives - (s.balls.countP (isMissed (movePaddle s).paddle_x) : ℤ) ∧
    (update s).balls = (s.balls.filter (isFalling (movePaddle s).paddle_x)).map advance ∧
    ((update s).game_over = true → update (update s) = update s) :=
  ⟨update_score s h, update_lives s h, update_balls s h,
    fun hg => update_frozen_aux (update s) hg⟩

/-- Closed witness for the amended C2 at `doubleMissState`. -/
theorem tick_processes_all_balls_witness :
    (update doubleMissState).lives =
      doubleMissState.lives -
        (doubleMissState.balls.countP (isMissed (movePaddle doubleMissState).paddle_x) : ℤ) :=
  (tick_processes_all_balls doubleMissState rfl).2.1

/-- C3 counterexample: the state reached from the initial state by four
spawns at x = 12 followed by 107 ticks is reachable and has lives = -1:
the game-ending tick misses all four balls and decrements lives past its
claimed floor of 0. -/
theorem reachable_negative_lives_cex :
    Reachable overshootState ∧ overshootState.lives = -1 := by
  constructor
  · exact reachable_iterate fourSpawns
      (Reachable.spawn 12 (by decide) (by decide)
        (Reachable.spawn 12 (by decide) (by decide)
          (Reachable.spawn 12 (by decide) (by decide)
            (Reachable.spawn 12 (by decide) (by decide) Reachable.init)))) 107
  · decide

/-- C3 amended: in every reachable state, lives ≥ 1 while the phase is
Playing (so lives ≥ 0 holds as long as the game is running); lives can drop
below 0 only in the single tick that ends the game, when several balls are
missed at once, after which the state is frozen. -/
theorem reachable_playing_lives_ge_one (s : GameState) (h : Reachable s) :
    s.game_over = false → 1 ≤ s.lives := by
  induction h with
  | init => intro _; norm_num [initState]
  | @tick s0 h0 ih =>
      intro hp
      rcases hg : s0.game_over with _ | _
      · have h1 := ih hg
        have hgo := update_game_over s0 hg
        have hnc : ¬ (1 ≤ s0.balls.countP (isMissed (movePaddle s0).paddle_x) ∧
            s0.lives ≤ (s0.balls.countP (isMissed (movePaddle s0).paddle_x) : ℤ)) := by
          intro hc
          rw [hgo.mpr hc] at hp
          exact absurd hp (by decide)
        rw [update_lives s0 hg]
        omega
      · rw [update_frozen_aux s0 hg] at hp ⊢
        exact ih hp
  | @spawn s0 x hx1 hx2 h0 ih =>
      intro hp
      rw [spawnBall_game_over s0 x] at hp
      rw [spawnBall_lives s0 x]
      exact ih hp

/-- Closed witness for the amended C3 at the initial state. -/
theorem reachable_playing_lives_ge_one_witness : 1 ≤ initState.lives :=
  reachable_playing_lives_ge_one initState Reachable.init rfl

/-- C4: with the post-advance paddle position fixed, processing a tick's
balls in any permutation of their order produces the same final score,
lives and game-over flag, keeps a permutation of the same balls, and
removes a permutation of the same balls. -/
theorem processBalls_perm_invariant (px : ℤ) (a : TickAcc) (l l' : List Ball)
    (h : l.Perm l') :
    (processBalls px a l).score = (processBalls px a l').score ∧
    (processBalls px a l).lives = (processBalls px a l').lives ∧
    (processBalls px a l).game_over = (processBalls px a l').game_over ∧
    (processBalls px a l).kept.Perm (processBalls px a l').kept ∧
    (l.filter fun b => isCaught px b || isMissed px b).Perm
      (l'.filter fun b => isCaught px b || isMissed px b) := by
  refine ⟨?_, ?_, ?_, ?_, h.filter _⟩
  · rw [processBalls_score, processBalls_score, h.countP_eq (isCaught px)]
  · rw [processBalls_lives, processBalls_lives, h.countP_eq (isMissed px)]
  · rw [Bool.eq_iff_iff, processBalls_game_over, processBalls_game_over,
      h.countP_eq (isMissed px)]
  · rw [processBalls_kept, processBalls_kept]
    exact (((h.filter (isFalling px)).map advance).append_left a.kept)

/-- A ball the paddle at 250 catches as soon as it advances. -/
def caughtBall : Ball := ⟨250, 350, 12⟩

/-- A ball that crosses the bottom on its next advance, out of the span of
the paddle at 250. -/
def missedBall : Ball := ⟨12, 412, 12⟩

/-- Closed witness for C4: one caught and one missed ball, in both orders. -/
theorem processBalls_perm_invariant_witness :
    ([caughtBall, missedBall] : List Ball).Perm [missedBall, caughtBall] ∧
    (processBalls 250 ⟨0, 3, false, []⟩ [caughtBall, missedBall]).lives =
      (processBalls 250 ⟨0, 3, false, []⟩ [missedBall, caughtBall]).lives :=
  ⟨by decide,
    (processBalls_perm_invariant 250 ⟨0, 3, false, []⟩ [caughtBall, missedBall]
      [missedBall, caughtBall] (by decide)).2.1⟩

/-- C5: once the game is over, a tick returns the state unchanged and a
spawn adds no ball (both return immediately), until an explicit restart. -/
theorem game_over_frozen (s : GameState) (x : ℤ) (h : s.game_over = true) :
    update s = s ∧ spawnBall s x = s :=
  ⟨update_frozen_aux s h, spawnBall_frozen_aux s x h⟩

/-- A game-over state with a lingering ball. -/
def endedState : GameState :=
  { paddle_x := 250
    score := 5
    lives := 0
    move_left := false
    move_right := false
    balls := [⟨100, 100, 12⟩]
    game_over := true }

/-- Closed witness for C5 at a concrete game-over state. -/
theorem game_over_frozen_witness :
    endedState.game_over = true ∧
    (update endedState = endedState ∧ spawnBall endedState 77 = endedState) :=
  ⟨rfl, game_over_frozen endedState 77 rfl⟩

/-- C6: restart resets the observable game state — score 0, lives 3, no
live balls, Playing — and re-centres the paddle, for every prior state;
the reset state is built in one step, so no partially-reset state is
observable. -/
theorem restart_resets (s : GameState) :
    (restart s).score = initState.score ∧
    (restart s).lives = initState.lives ∧
    (restart s).balls = initState.balls ∧
    (restart s).game_over = initState.game_over ∧
    (restart s).paddle_x = initState.paddle_x :=
  ⟨rfl, rfl, rfl, rfl, rfl⟩

/-- C7: when the paddle centre starts within
`[PADDLE_WIDTH/2, WIDTH - PADDLE_WIDTH/2]`, the post-step centre equals the
intended `centerX + dx` clamped to that interval — the minimal correction —
and hence stays within bounds, for every movement intent. -/
theorem movePaddle_clamp (s : GameState)
    (h1 : PADDLE_WIDTH / 2 ≤ s.paddle_x) (h2 : s.paddle_x ≤ WIDTH - PADDLE_WIDTH / 2) :
    (movePaddle s).paddle_x =
      max (PADDLE_WIDTH / 2) (min (s.paddle_x + paddleDx s) (WIDTH - PADDLE_WIDTH / 2)) ∧
    PADDLE_WIDTH / 2 ≤ (movePaddle s).paddle_x ∧
    (movePaddle s).paddle_x ≤ WIDTH - PADDLE_WIDTH / 2 := by
  have hpw : PADDLE_WIDTH / 2 = (50 : ℤ) := by decide
  have hw : WIDTH = (500 : ℤ) := by decide
  rw [hpw] at h1
  rw [hw, hpw] at h2
  have hdx : paddleDx s = -8 ∨ paddleDx s = 0 ∨ paddleDx s = 8 := by
    unfold paddleDx
    split
    · exact Or.inl rfl
    · split
      · exact Or.inr (Or.inr rfl)
      · exact Or.inr (Or.inl rfl)
  rw [hpw, hw]
  unfold movePaddle
  rcases hdx with h3 | h3 | h3 <;> rw [h3]
  · rw [if_pos (by decide)]
    dsimp only
    rw [clampShift_eq (s.paddle_x + -8) (by omega)]
    refine ⟨rfl, ?_, ?_⟩ <;> omega
  · rw [if_neg (by decide)]
    refine ⟨?_, ?_, ?_⟩ <;> omega
  · rw [if_pos (by decide)]
    dsimp only
    rw [clampShift_eq (s.paddle_x + 8) (by omega)]
    refine ⟨rfl, ?_, ?_⟩ <;> omega

/-- A state with the paddle near the left wall, moving left. -/
def nearLeftState : GameState :=
  { paddle_x := 55
    score := 0
    lives := 3
    move_left := true
    move_right := false
    balls := []
    game_over := false }

/-- Closed witness for C7: moving left at centre 55 clamps to exactly 50. -/
theorem movePaddle_clamp_witness :
    PADDLE_WIDTH / 2 ≤ nearLeftState.paddle_x ∧
    (movePaddle nearLeftState).paddle_x =
      max (PADDLE_WIDTH / 2)
        (min (nearLeftState.paddle_x + paddleDx nearLeftState)
          (WIDTH - PADDLE_WIDTH / 2)) :=
  ⟨by decide, (movePaddle_clamp nearLeftState (by decide) (by decide)).1⟩

/-- C8: a tick taken while the phase is Playing never increases lives and
never decreases score. -/
theorem tick_monotone (s : GameState) (h : s.game_over = false) :
    (update s).lives ≤ s.lives ∧ s.score ≤ (update s).score := by
  constructor
  · rw [update_lives s h]; omega
  · rw [update_score s h]; omega

/-- Closed witness for C8 at the initial state. -/
theorem tick_monotone_witness :
    initState.game_over = false ∧
    ((update initState).lives ≤ initState.lives ∧
      initState.score ≤ (update initState).score) :=
  ⟨rfl, tick_monotone initState rfl⟩

/-- C9 counterexample: no sequence of `set_move` events, starting from the
initial state, makes `move_left` and `move_right` true at the same time —
the source's `set_move` always clears the opposite flag, so the two-flag
race state the claim asserts is unreachable. -/
theorem both_flags_unreachable_cex :
    ¬ ∃ dirs : List ℤ,
        ((applyMoves initState dirs).move_left = true ∧
          (applyMoves initState dirs).move_right = true) := by
  rintro ⟨dirs, hl, hr⟩
  have key : ∀ (ds : List ℤ) (s : GameState),
      (s.move_left && s.move_right) = false →
      ((applyMoves s ds).move_left && (applyMoves s ds).move_right) = false := by
    intro ds
    induction ds with
    | nil => intro s hs; exact hs
    | cons d t ih =>
        intro s hs
        have hone : applyMoves s (d :: t) = applyMoves (setMove s d) t := rfl
        rw [hone]
        apply ih
        unfold setMove
        split
        · rfl
        · split <;> rfl
  have hboth := key dirs initState rfl
  rw [hl, hr] at hboth
  exact absurd hboth (by decide)

/-- C9 amended: after any single `set_move` call, at most one movement flag
is set (each press overwrites the opposite flag, and release clears both),
so both flags can never be true simultaneously, from any state. -/
theorem setMove_exclusive (s : GameState) (dir : ℤ) :
    ((setMove s dir).move_left && (setMove s dir).move_right) = false := by
  unfold setMove
  split
  · rfl
  · split <;> rfl

/-- C10: a ball whose bottom edge has passed the paddle's top row is caught
the moment the paddle span covers its centre x — even when it is already
below the paddle row or past the bottom of the screen — scoring exactly
one point and being removed rather than judged missed. -/
theorem late_catch (px : ℤ) (a : TickAcc) (b : Ball)
    (hrow : HEIGHT - 30 - PADDLE_HEIGHT ≤ (advance b).y + (advance b).r)
    (hl : px - PADDLE_WIDTH / 2 ≤ b.x) (hr : b.x ≤ px + PADDLE_WIDTH / 2) :
    classify px (advance b) = Outcome.Caught ∧
    stepBall px a b = { a with score := a.score + 1 } := by
  have hcond : HEIGHT - 30 - PADDLE_HEIGHT ≤ (advance b).y + (advance b).r ∧
      px - PADDLE_WIDTH / 2 ≤ (advance b).x ∧ (advance b).x ≤ px + PADDLE_WIDTH / 2 :=
    ⟨hrow, hl, hr⟩
  have hc : classify px (advance b) = Outcome.Caught := by
    unfold classify
    rw [if_pos hcond]
  exact ⟨hc, stepBall_caught px a b hc⟩

/-- A ball already past the bottom of the screen, under the paddle at 250. -/
def belowScreenBall : Ball := ⟨250, 420, 12⟩

/-- Closed witness for C10: the off-screen ball is caught, not missed. -/
theorem late_catch_witness :
    classify 250 (advance belowScreenBall) = Outcome.Caught ∧
    stepBall 250 ⟨0, 3, false, []⟩ belowScreenBall =
      { (⟨0, 3, false, []⟩ : TickAcc) with score := (0 : ℤ) + 1 } :=
  late_catch 250 ⟨0, 3, false, []⟩ belowScreenBall (by decide) (by decide) (by decide)

end SimpleGame
